import Mathlib

/-!
Shallow embedding of the TerminalUI log collector and producer
(padmarajkore/TerminalUI).

Log lines are modelled as `String`; the Go helpers strings.Contains,
strings.ToUpper and strings.ToLower are modelled on the underlying
character lists. Wall-clock timestamps are natural numbers counted in
milliseconds, so the 3-second liveness timeout is the constant 3000 and
time.Since(lastHeartbeat) is truncated subtraction. Sockets are modelled
by numeric descriptor ids; closing a descriptor is recorded in a list.
-/

/-- Leading-match test on character lists: does the pattern `sub` start at
the head of `s`? This is the per-position check of a substring scan. -/
def isPre : List Char → List Char → Bool
  | [], _ => true
  | _ :: _, [] => false
  | a :: as, b :: bs => a == b && isPre as bs

/-- Occurrence scan: does `sub` occur contiguously inside `s`? Mirrors Go
strings.Contains(s, sub), which reports whether sub is within s. -/
def strContains : List Char → List Char → Bool
  | [], sub => sub.isEmpty
  | c :: t, sub => isPre sub (c :: t) || strContains t sub

/-- Go strings.Contains on the String model. -/
def goContains (s sub : String) : Bool :=
  strContains s.data sub.data

/-- Go strings.ToUpper, restricted to the ASCII range, which covers every
keyword the program compares against. -/
def goToUpper (s : String) : String :=
  ⟨s.data.map Char.toUpper⟩

/-- Go strings.ToLower, restricted to the ASCII range. -/
def goToLower (s : String) : String :=
  ⟨s.data.map Char.toLower⟩

/-- Translated from colorizeLog (src/Ui3/Server/server.go lines 254 to 263;
the same function appears verbatim in src/Ui6/Server/server.go lines 264 to
275 and in the other variants): wraps a log line in color markup chosen by
the first severity keyword it contains, in the order INFO, WARNING, ERROR,
and returns the line unchanged when none matches. -/
def colorizeLog (log : String) : String :=
  if goContains log "INFO" then "[green]" ++ log ++ "[white]"
  else if goContains log "WARNING" then "[yellow]" ++ log ++ "[white]"
  else if goContains log "ERROR" then "[red]" ++ log ++ "[white]"
  else log

/-- Severity classes of the data model. -/
inductive Severity where
  | INFO
  | WARNING
  | ERROR
  | OTHER
deriving DecidableEq, BEq, Repr

/-- Severity derived at ingestion: the branch of colorizeLog that fires, in
the source order INFO, WARNING, ERROR, else OTHER, with the same
case-sensitive substring tests as colorizeLog. -/
def classify (log : String) : Severity :=
  if goContains log "INFO" then Severity.INFO
  else if goContains log "WARNING" then Severity.WARNING
  else if goContains log "ERROR" then Severity.ERROR
  else Severity.OTHER

/-- Markup wrapper that colorizeLog attaches to each severity class. -/
def colorWrap : Severity → String → String
  | Severity.INFO, s => "[green]" ++ s ++ "[white]"
  | Severity.WARNING, s => "[yellow]" ++ s ++ "[white]"
  | Severity.ERROR, s => "[red]" ++ s ++ "[white]"
  | Severity.OTHER, s => s

/-- Severity named by a filter keyword of the query interface. -/
def filterSev (f : String) : Severity :=
  if f = "INFO" then Severity.INFO
  else if f = "WARNING" then Severity.WARNING
  else if f = "ERROR" then Severity.ERROR
  else Severity.OTHER

namespace Ui3

/-- Translated from logManager.AddLog (src/Ui3/Server/server.go lines 32 to
36): append at the tail of the store. -/
def AddLog (log : String) (logs : List String) : List String :=
  logs ++ [log]

/-- Translated from logManager.GetFilteredLogs (src/Ui3/Server/server.go
lines 38 to 51): the filter ALL returns a copy of the whole store, any
other filter keeps the entries whose upper-cased text contains the
upper-cased filter. -/
def GetFilteredLogs (filter : String) (logs : List String) : List String :=
  if filter = "ALL" then logs
  else logs.filter fun log => goContains (goToUpper log) (goToUpper filter)

/-- Translated from logManager.GetSearchFilteredLogs
(src/Ui3/Server/server.go lines 53 to 66): the empty query returns a copy
of the whole store, any other query keeps the entries whose lower-cased
text contains the lower-cased query. -/
def GetSearchFilteredLogs (query : String) (logs : List String) : List String :=
  if query = "" then logs
  else logs.filter fun log => goContains (goToLower log) (goToLower query)

end Ui3

namespace Ui6

/-- Heartbeat sentinel (const heartbeat, src/Ui6/Server/server.go line 19). -/
def heartbeat : String := "_HEARTBEAT_"

/-- Liveness timeout in milliseconds (const heartbeatTimer = 3 *
time.Second, src/Ui6/Server/server.go line 21). -/
def heartbeatTimer : Nat := 3000

/-- ConnectionState (src/Ui6/Server/server.go lines 49 to 54) together with
the log store of the LogManager and the record of descriptors closed so
far. -/
structure ServerState where
  conn : Option Nat
  alive : Bool
  lastHeartbeat : Nat
  logs : List String
  closed : List Nat
deriving DecidableEq, Repr

/-- Collector start state: no connection installed, not alive, empty
store. -/
def initState : ServerState :=
  { conn := none, alive := false, lastHeartbeat := 0, logs := [], closed := [] }

/-- Lifecycle events of the collector, each carrying its wall-clock time in
milliseconds. -/
inductive Event where
  | accept (sock : Nat) (t : Nat)
  | recvLine (msg : String) (t : Nat)
  | monitorTick (t : Nat)
  | readLoopExit (t : Nat)
deriving DecidableEq, Repr

/-- Accept path, translated from the locked region of acceptConnections
(src/Ui6/Server/server.go lines 228 to 235): close the previous socket if
one is present, install the new one, set alive and stamp lastHeartbeat with
the current time. -/
def acceptConn (sock t : Nat) (s : ServerState) : ServerState :=
  { s with
    conn := some sock
    alive := true
    lastHeartbeat := t
    closed := match s.conn with
      | some c => c :: s.closed
      | none => s.closed }

/-- One iteration of the scanner loop of handleClient
(src/Ui6/Server/server.go lines 250 to 261): the heartbeat sentinel
refreshes alive and lastHeartbeat; any other line is colorized and appended
to the store, leaving the connection fields untouched. -/
def recvLine (msg : String) (t : Nat) (s : ServerState) : ServerState :=
  if msg = heartbeat then { s with alive := true, lastHeartbeat := t }
  else { s with logs := s.logs ++ [colorizeLog msg] }

/-- One tick of monitorConnection (src/Ui6/Server/server.go lines 190 to
196): with a socket installed and more than heartbeatTimer elapsed since
lastHeartbeat, clear alive; the socket itself is not closed. -/
def monitorTick (t : Nat) (s : ServerState) : ServerState :=
  if s.conn ≠ none ∧ t - s.lastHeartbeat > heartbeatTimer then { s with alive := false }
  else s

/-- Read-loop exit, translated from the deferred block of handleClient
(src/Ui6/Server/server.go lines 242 to 247): the socket is closed and alive
is cleared; the conn field itself is not reset. -/
def readLoopExit (s : ServerState) : ServerState :=
  { s with
    alive := false
    closed := match s.conn with
      | some c => c :: s.closed
      | none => s.closed }

/-- Step function over lifecycle events. -/
def stepEvent : Event → ServerState → ServerState
  | Event.accept sock t, s => acceptConn sock t s
  | Event.recvLine msg t, s => recvLine msg t s
  | Event.monitorTick t, s => monitorTick t s
  | Event.readLoopExit _, s => readLoopExit s

/-- Run a trace of lifecycle events from a state. -/
def runEvents (events : List Event) (s : ServerState) : ServerState :=
  events.foldl (fun st e => stepEvent e st) s

/-- Did any line, heartbeat or payload, arrive within the liveness timeout
before time `now`? -/
def lineWithin (events : List Event) (now : Nat) : Bool :=
  events.any fun e => match e with
    | Event.recvLine _ t => now - t ≤ heartbeatTimer
    | _ => false

/-- Events that stamp lastHeartbeat with their time: accepts and heartbeat
sentinel lines. -/
def stampedBy (events : List Event) (lh : Nat) : Bool :=
  events.any fun e => match e with
    | Event.accept _ t => t == lh
    | Event.recvLine msg t => msg == heartbeat && t == lh
    | _ => false

end Ui6

namespace Part000

/-- Accept path of the four-pane server variant, translated from the accept
goroutine in src/unnamed/part_000 lines 189 to 196: the old socket is
closed and the new one installed with lastHeartbeat stamped, but the
assignment clientAlive = true is commented out in the source, so alive is
left as it was. -/
def acceptConn (sock t : Nat) (s : Ui6.ServerState) : Ui6.ServerState :=
  { s with
    conn := some sock
    lastHeartbeat := t
    closed := match s.conn with
      | some c => c :: s.closed
      | none => s.closed }

end Part000

namespace Ui4

/-- Translated from logManager.AddLog (src/Ui4/Client/client.go lines 27 to
31). -/
def AddLog (log : String) (logs : List String) : List String :=
  logs ++ [log]

/-- Translated from logManager.GetLogs (src/Ui4/Client/client.go lines 33
to 40): when the store holds more than limit entries return the slice of
the last limit of them, otherwise a copy of the whole store. The Go
parameter is a machine int, modelled as Int. -/
def GetLogs (limit : Int) (logs : List String) : List String :=
  if (logs.length : Int) > limit then logs.drop ((logs.length : Int) - limit).toNat
  else logs

/-- GetLogs viewed as a method call on the receiver: the result paired with
the store field after the call; the body only reads the slice, so the
store is returned as it was. -/
def GetLogsM (limit : Int) (logs : List String) : List String × List String :=
  (GetLogs limit logs, logs)

/-- Synthetic local entry appended when a send is attempted while
disconnected (src/Ui4/Client/client.go line 214). -/
def brokenMsg : String := "Connection is broken. Unable to send log."

/-- Per-key log message construction (src/Ui4/Client/client.go lines 219 to
234): the keys I, W and E build a log line from the timestamp; any other
key produces no message (quit or pass-through). -/
def keyToMsg (key : Char) (ts : String) : Option String :=
  if key = 'I' ∨ key = 'i' then some (ts ++ " INFO: Info log sent")
  else if key = 'W' ∨ key = 'w' then some (ts ++ " WARNING: Warning log sent")
  else if key = 'E' ∨ key = 'e' then some (ts ++ " ERROR: Error log sent")
  else none

/-- The SetInputCapture handler (src/Ui4/Client/client.go lines 212 to 248)
as a function of the connection flag, the readiness of the send channel
(the select with a default branch), the key, the timestamp and the local
store. Returns the new local store and the message handed to the sender
goroutine, if any. -/
def inputCapture (isConnected channelReady : Bool) (key : Char) (ts : String)
    (logs : List String) : List String × Option String :=
  if isConnected = false then (AddLog brokenMsg logs, none)
  else match keyToMsg key ts with
    | none => (logs, none)
    | some logMsg =>
      let logs1 := AddLog logMsg logs
      if channelReady then (logs1, some logMsg)
      else (AddLog "Failed to send log to server." logs1, none)

end Ui4

/-!
Helper lemmas about the substring scan and the stores.
-/

/-- A leading match survives extending the scanned list on the right. -/
theorem isPre_append (sub a b : List Char) (h : isPre sub a = true) :
    isPre sub (a ++ b) = true := by
  induction sub generalizing a with
  | nil => simp [isPre]
  | cons x xs ih =>
    cases a with
    | nil => simp [isPre] at h
    | cons y ys =>
      simp [isPre] at h ⊢
      exact ⟨h.1, ih ys h.2⟩

/-- A leading match is preserved by mapping a character function over both
lists. -/
theorem isPre_map (f : Char → Char) (sub s : List Char) (h : isPre sub s = true) :
    isPre (sub.map f) (s.map f) = true := by
  induction sub generalizing s with
  | nil => simp [isPre]
  | cons x xs ih =>
    cases s with
    | nil => simp [isPre] at h
    | cons y ys =>
      simp [isPre] at h ⊢
      exact ⟨by rw [h.1], ih ys h.2⟩

/-- The empty pattern occurs in every list. -/
theorem strContains_nil (s : List Char) : strContains s [] = true := by
  cases s with
  | nil => rfl
  | cons c t => simp [strContains, isPre]

/-- An occurrence in the left part survives appending on the right. -/
theorem strContains_left (a b sub : List Char) (h : strContains a sub = true) :
    strContains (a ++ b) sub = true := by
  induction a with
  | nil =>
    cases sub with
    | nil => exact strContains_nil b
    | cons x xs => simp [strContains] at h
  | cons c t ih =>
    simp [strContains] at h ⊢
    rcases h with h | h
    · exact Or.inl (isPre_append sub (c :: t) b h)
    · exact Or.inr (ih h)

/-- An occurrence in the right part survives prepending on the left. -/
theorem strContains_right (a b sub : List Char) (h : strContains b sub = true) :
    strContains (a ++ b) sub = true := by
  induction a with
  | nil => exact h
  | cons c t ih =>
    simp [strContains]
    exact Or.inr ih

/-- An occurrence is preserved by mapping a character function over both
lists. -/
theorem strContains_map (f : Char → Char) (s sub : List Char)
    (h : strContains s sub = true) :
    strContains (s.map f) (sub.map f) = true := by
  induction s with
  | nil =>
    cases sub with
    | nil => rfl
    | cons x xs => simp [strContains] at h
  | cons c t ih =>
    simp [strContains] at h ⊢
    rcases h with h | h
    · exact Or.inl (isPre_map f sub (c :: t) h)
    · exact Or.inr (ih h)

/-- Occurrences transfer into the colorized form of a line: the markup is
appended around the original text. -/
theorem goContains_colorizeLog (m sub : String) (h : goContains m sub = true) :
    goContains (colorizeLog m) sub = true := by
  unfold colorizeLog
  split_ifs with h1 h2 h3
  · exact strContains_left _ _ _ (strContains_right _ _ _ h)
  · exact strContains_left _ _ _ (strContains_right _ _ _ h)
  · exact strContains_left _ _ _ (strContains_right _ _ _ h)
  · exact h

/-- Occurrences transfer through upper-casing of both strings. -/
theorem goContains_toUpper (s sub : String) (h : goContains s sub = true) :
    goContains (goToUpper s) (goToUpper sub) = true :=
  strContains_map Char.toUpper s.data sub.data h

/-- A keyword occurring in a raw line occurs, upper-cased, in the
upper-cased colorized line; this is the membership test GetFilteredLogs
applies. -/
theorem keyword_in_query (m f : String) (hm : goContains m f = true) :
    goContains (goToUpper (colorizeLog m)) (goToUpper f) = true :=
  goContains_toUpper _ _ (goContains_colorizeLog m f hm)

/-- A line classified INFO contains the INFO keyword. -/
theorem classify_info_contains (m : String) (h : classify m = Severity.INFO) :
    goContains m "INFO" = true := by
  unfold classify at h
  split_ifs at h
  all_goals simp_all

/-- A line classified WARNING contains the WARNING keyword. -/
theorem classify_warning_contains (m : String) (h : classify m = Severity.WARNING) :
    goContains m "WARNING" = true := by
  unfold classify at h
  split_ifs at h
  all_goals simp_all

/-- A line classified ERROR contains the ERROR keyword. -/
theorem classify_error_contains (m : String) (h : classify m = Severity.ERROR) :
    goContains m "ERROR" = true := by
  unfold classify at h
  split_ifs at h
  all_goals simp_all

/-- Folding AddLog over a message list appends the messages in order. -/
theorem foldl_addLog (msgs acc : List String) :
    msgs.foldl (fun st m => Ui3.AddLog m st) acc = acc ++ msgs := by
  induction msgs generalizing acc with
  | nil => simp
  | cons m ms ih =>
    rw [List.foldl_cons, ih]
    simp [Ui3.AddLog]

/-!
Claim theorems.
-/

/-- C1 counterexample: the payload line "payload" received at time 5 does
not refresh lastHeartbeat to 5; the receive handler touches liveness only
on the heartbeat sentinel. -/
theorem c1_counterexample :
    (Ui6.runEvents [Ui6.Event.accept 0 0, Ui6.Event.recvLine "payload" 5]
        Ui6.initState).lastHeartbeat ≠ 5 := by
  decide

/-- C1 (amended): a received line never changes which socket is active; the
heartbeat sentinel sets alive and refreshes lastHeartbeat to now, while a
payload line leaves alive and lastHeartbeat unchanged. -/
theorem c1_touch_on_heartbeat_only (s : Ui6.ServerState) (msg : String) (t : Nat) :
    (Ui6.recvLine msg t s).conn = s.conn ∧
    (msg = Ui6.heartbeat →
      (Ui6.recvLine msg t s).alive = true ∧ (Ui6.recvLine msg t s).lastHeartbeat = t) ∧
    (msg ≠ Ui6.heartbeat →
      (Ui6.recvLine msg t s).alive = s.alive ∧
      (Ui6.recvLine msg t s).lastHeartbeat = s.lastHeartbeat) := by
  by_cases hm : msg = Ui6.heartbeat
  · simp [Ui6.recvLine, hm]
  · simp [Ui6.recvLine, hm]

/-- C1 witness: the heartbeat sentinel received at time 5 sets alive and
stamps lastHeartbeat with 5. -/
theorem c1_witness :
    ("_HEARTBEAT_" : String) = Ui6.heartbeat ∧
    (Ui6.recvLine "_HEARTBEAT_" 5 Ui6.initState).alive = true ∧
    (Ui6.recvLine "_HEARTBEAT_" 5 Ui6.initState).lastHeartbeat = 5 :=
  ⟨rfl, (c1_touch_on_heartbeat_only Ui6.initState "_HEARTBEAT_" 5).2.1 rfl⟩

/-- C3: evaluating the accept paths at a fresh collector state. The
four-pane variant of src/unnamed/part_000 installs socket 7 and stamps
lastHeartbeat with 42 but leaves alive false, because the assignment
clientAlive = true is commented out there; the Ui6 accept path sets alive
true on the same input. -/
theorem c3_part000_accept_leaves_alive_false :
    (Part000.acceptConn 7 42 Ui6.initState).alive = false ∧
    (Part000.acceptConn 7 42 Ui6.initState).conn = some 7 ∧
    (Part000.acceptConn 7 42 Ui6.initState).lastHeartbeat = 42 ∧
    (Ui6.acceptConn 7 42 Ui6.initState).alive = true := by
  decide

/-- C4 counterexample: the non-heartbeat line INFO: boot is appended as the
colorized string and not verbatim; the stored text differs from the
received line. -/
theorem c4_counterexample :
    (Ui6.recvLine "INFO: boot" 1 (Ui6.acceptConn 0 0 Ui6.initState)).logs =
      ["[green]INFO: boot[white]"] ∧
    ("[green]INFO: boot[white]" : String) ≠ "INFO: boot" := by
  decide

/-- C4 (amended): the exact heartbeat sentinel is treated as a heartbeat
event and never appended; every other line is accepted and appended after
colorization, and the stored text equals the received line unchanged
exactly when no severity keyword matches. -/
theorem c4_payload_appended_colorized (s : Ui6.ServerState) (msg : String) (t : Nat) :
    (msg = Ui6.heartbeat → (Ui6.recvLine msg t s).logs = s.logs) ∧
    (msg ≠ Ui6.heartbeat →
      (Ui6.recvLine msg t s).logs = s.logs ++ [colorizeLog msg]) ∧
    (classify msg = Severity.OTHER → colorizeLog msg = msg) := by
  refine ⟨fun hm => by simp [Ui6.recvLine, hm], fun hm => by simp [Ui6.recvLine, hm], ?_⟩
  intro ho
  unfold classify at ho
  unfold colorizeLog
  split_ifs at ho ⊢
  all_goals simp_all

/-- C4 witness: the line hello is not the sentinel and is appended into the
store colorized (here unchanged, as it matches no keyword). -/
theorem c4_witness :
    ("hello" : String) ≠ Ui6.heartbeat ∧
    (Ui6.recvLine "hello" 3 Ui6.initState).logs =
      Ui6.initState.logs ++ [colorizeLog "hello"] :=
  ⟨by decide, (c4_payload_appended_colorized Ui6.initState "hello" 3).2.1 (by decide)⟩

/-- C7: for every sequence of Append calls the ALL filter returns every
appended entry, unfiltered, in exactly the order appended. -/
theorem c7_all_returns_append_order (msgs : List String) :
    Ui3.GetFilteredLogs "ALL" (msgs.foldl (fun st m => Ui3.AddLog m st) []) = msgs := by
  rw [foldl_addLog]
  simp [Ui3.GetFilteredLogs]

/-- C8: the empty search query returns exactly the same result as the ALL
severity filter on every store contents. -/
theorem c8_empty_search_equals_all (logs : List String) :
    Ui3.GetSearchFilteredLogs "" logs = Ui3.GetFilteredLogs "ALL" logs := by
  simp [Ui3.GetSearchFilteredLogs, Ui3.GetFilteredLogs]

/-- C9: a user-triggered send attempted while disconnected appends the
synthetic connection-broken entry to the local store and hands nothing to
the sender goroutine, whatever the key, the timestamp, the store contents
and the channel readiness. -/
theorem c9_disconnected_send_rejected (channelReady : Bool) (key : Char)
    (ts : String) (logs : List String) :
    Ui4.inputCapture false channelReady key ts logs = (logs ++ [Ui4.brokenMsg], none) ∧
    goContains Ui4.brokenMsg "broken" = true := by
  refine ⟨?_, by decide⟩
  simp [Ui4.inputCapture, Ui4.AddLog]

/-- C10: for every non-negative limit, GetLogs returns the last
min(limit, n) entries of the store in stored order and leaves the store
field unchanged. -/
theorem c10_get_logs_last_min (logs : List String) (limit : Int) (h : 0 ≤ limit) :
    Ui4.GetLogsM limit logs = (logs.drop (logs.length - limit.toNat), logs) ∧
    (Ui4.GetLogs limit logs).length = min limit.toNat logs.length := by
  unfold Ui4.GetLogsM Ui4.GetLogs
  by_cases hgt : (logs.length : Int) > limit
  · rw [if_pos hgt]
    have ht : ((logs.length : Int) - limit).toNat = logs.length - limit.toNat := by omega
    rw [ht]
    refine ⟨rfl, ?_⟩
    rw [List.length_drop]
    omega
  · rw [if_neg hgt]
    have h0 : logs.length - limit.toNat = 0 := by omega
    rw [h0, List.drop_zero]
    refine ⟨rfl, ?_⟩
    omega

/-- C10 witness: on a three-entry store with limit 2 the call returns the
last two entries and the store is unchanged. -/
theorem c10_witness :
    (0 : Int) ≤ 2 ∧
    Ui4.GetLogsM 2 ["a", "b", "c"] = (["b", "c"], ["a", "b", "c"]) := by
  refine ⟨by decide, ?_⟩
  rw [(c10_get_logs_last_min ["a", "b", "c"] 2 (by decide)).1]
  decide

/-- Growing the trace preserves membership of a stamping event. -/
theorem stampedBy_mono (e : Ui6.Event) (events : List Ui6.Event) (lh : Nat)
    (h : Ui6.stampedBy events lh = true) : Ui6.stampedBy (e :: events) lh = true := by
  simp [Ui6.stampedBy, List.any_cons] at h ⊢
  exact Or.inr h

/-- Along any trace, if alive holds at the end then lastHeartbeat was
stamped by an accept or a heartbeat line of the trace, unless alive already
held in the start state and lastHeartbeat is still the start value. -/
theorem runEvents_alive_stamped (events : List Ui6.Event) (s : Ui6.ServerState) :
    (Ui6.runEvents events s).alive = true →
    Ui6.stampedBy events (Ui6.runEvents events s).lastHeartbeat = true ∨
    (s.alive = true ∧ (Ui6.runEvents events s).lastHeartbeat = s.lastHeartbeat) := by
  induction events generalizing s with
  | nil => intro h; exact Or.inr ⟨h, rfl⟩
  | cons e es ih =>
    intro h
    have hrun : Ui6.runEvents (e :: es) s = Ui6.runEvents es (Ui6.stepEvent e s) := rfl
    rw [hrun] at h ⊢
    rcases ih (Ui6.stepEvent e s) h with hst | ⟨ha, hlh⟩
    · exact Or.inl (stampedBy_mono e es _ hst)
    · cases e with
      | accept sock t =>
        refine Or.inl ?_
        have ht : (Ui6.stepEvent (Ui6.Event.accept sock t) s).lastHeartbeat = t := rfl
        rw [hlh, ht]
        simp [Ui6.stampedBy, List.any_cons]
      | recvLine msg t =>
        by_cases hm : msg = Ui6.heartbeat
        · refine Or.inl ?_
          have ht : (Ui6.stepEvent (Ui6.Event.recvLine msg t) s).lastHeartbeat = t := by
            simp [Ui6.stepEvent, Ui6.recvLine, hm]
          rw [hlh, ht]
          simp [Ui6.stampedBy, List.any_cons, hm]
        · refine Or.inr ?_
          have hstep : (Ui6.stepEvent (Ui6.Event.recvLine msg t) s).alive = s.alive ∧
              (Ui6.stepEvent (Ui6.Event.recvLine msg t) s).lastHeartbeat =
                s.lastHeartbeat := by
            simp [Ui6.stepEvent, Ui6.recvLine, hm]
          rw [hstep.1] at ha
          rw [hstep.2] at hlh
          exact ⟨ha, hlh⟩
      | monitorTick t =>
        refine Or.inr ?_
        by_cases hc : s.conn ≠ none ∧ t - s.lastHeartbeat > Ui6.heartbeatTimer
        · have : (Ui6.stepEvent (Ui6.Event.monitorTick t) s).alive = false := by
            simp [Ui6.stepEvent, Ui6.monitorTick, hc]
          rw [this] at ha
          cases ha
        · have hstep : Ui6.stepEvent (Ui6.Event.monitorTick t) s = s := by
            simp [Ui6.stepEvent, Ui6.monitorTick, hc]
          rw [hstep] at ha hlh ⊢
          exact ⟨ha, hlh⟩
      | readLoopExit t =>
        have : (Ui6.stepEvent (Ui6.Event.readLoopExit t) s).alive = false := rfl
        rw [this] at ha
        cases ha

/-- C2 counterexample: right after accepting socket 1 at time 0 the flag
alive is true, yet no heartbeat or payload line has ever arrived, so none
arrived within the liveness timeout. -/
theorem c2_counterexample :
    (Ui6.runEvents [Ui6.Event.accept 1 0] Ui6.initState).alive = true ∧
    Ui6.lineWithin [Ui6.Event.accept 1 0] 0 = false := by
  decide

/-- C2 (amended): after a monitor tick at time t on a state with a socket
installed, alive still true implies at most the liveness timeout elapsed
since lastHeartbeat; and whenever alive is true after a trace from the
start state, lastHeartbeat carries the time of an accept or heartbeat line
of the trace (payload lines never refresh it, and an accept stamps it
without any line having arrived). -/
theorem c2_liveness_invariant :
    (∀ (s : Ui6.ServerState) (t : Nat),
      (Ui6.monitorTick t s).conn ≠ none →
      (Ui6.monitorTick t s).alive = true →
      t - (Ui6.monitorTick t s).lastHeartbeat ≤ Ui6.heartbeatTimer) ∧
    (∀ events : List Ui6.Event,
      (Ui6.runEvents events Ui6.initState).alive = true →
      Ui6.stampedBy events (Ui6.runEvents events Ui6.initState).lastHeartbeat = true) := by
  constructor
  · intro s t hconn halive
    by_cases hc : s.conn ≠ none ∧ t - s.lastHeartbeat > Ui6.heartbeatTimer
    · have : (Ui6.monitorTick t s).alive = false := by simp [Ui6.monitorTick, hc]
      rw [this] at halive
      cases halive
    · have hs : Ui6.monitorTick t s = s := by simp [Ui6.monitorTick, hc]
      rw [hs] at hconn ⊢
      by_cases h2 : Ui6.heartbeatTimer < t - s.lastHeartbeat
      · exact absurd ⟨hconn, h2⟩ hc
      · omega
  · intro events h
    rcases runEvents_alive_stamped events Ui6.initState h with h1 | ⟨h2, _⟩
    · exact h1
    · simp [Ui6.initState] at h2

/-- C2 witness: on the trace that accepts socket 1 at time 0, alive holds
and lastHeartbeat is stamped by that accept. -/
theorem c2_witness :
    (Ui6.runEvents [Ui6.Event.accept 1 0] Ui6.initState).alive = true ∧
    Ui6.stampedBy [Ui6.Event.accept 1 0]
      (Ui6.runEvents [Ui6.Event.accept 1 0] Ui6.initState).lastHeartbeat = true :=
  ⟨by decide, c2_liveness_invariant.2 [Ui6.Event.accept 1 0] (by decide)⟩

/-- C5 counterexample: the raw line INFO ERROR is classified INFO at
ingestion (first match wins), yet QueryBySeverity with filter ERROR returns
its stored form, so the result is not the set of entries whose derived
severity equals the filter. -/
theorem c5_counterexample :
    Ui3.GetFilteredLogs "ERROR" (["INFO ERROR"].map colorizeLog) =
      ["[green]INFO ERROR[white]"] ∧
    (["INFO ERROR"].filter fun m => classify m == Severity.ERROR) = [] := by
  decide

/-- C5 (amended): for each filter among INFO, WARNING and ERROR the query
returns an order-preserving snapshot sublist of the store holding exactly
the entries whose stored text contains the filter keyword
case-insensitively; every entry whose ingestion-derived severity equals the
filter is included, but entries of other derived severities can also
appear. -/
theorem c5_query_by_severity (msgs : List String) (f : String)
    (hf : f = "INFO" ∨ f = "WARNING" ∨ f = "ERROR") :
    List.Sublist (Ui3.GetFilteredLogs f (msgs.map colorizeLog)) (msgs.map colorizeLog) ∧
    (∀ log ∈ Ui3.GetFilteredLogs f (msgs.map colorizeLog),
      goContains (goToUpper log) (goToUpper f) = true) ∧
    (∀ log ∈ msgs.map colorizeLog,
      goContains (goToUpper log) (goToUpper f) = true →
      log ∈ Ui3.GetFilteredLogs f (msgs.map colorizeLog)) ∧
    (∀ m ∈ msgs, classify m = filterSev f →
      colorizeLog m ∈ Ui3.GetFilteredLogs f (msgs.map colorizeLog)) := by
  have hAll : f ≠ "ALL" := by
    rcases hf with h | h | h
    all_goals subst h
    all_goals decide
  have hq : Ui3.GetFilteredLogs f (msgs.map colorizeLog) =
      (msgs.map colorizeLog).filter
        fun log => goContains (goToUpper log) (goToUpper f) := by
    unfold Ui3.GetFilteredLogs
    rw [if_neg hAll]
  refine ⟨?_, ?_, ?_, ?_⟩
  · rw [hq]
    exact List.filter_sublist _
  · intro log hlog
    rw [hq] at hlog
    exact (List.mem_filter.mp hlog).2
  · intro log hlog hp
    rw [hq]
    exact List.mem_filter.mpr ⟨hlog, hp⟩
  · intro m hm hcls
    have hkw : goContains m f = true := by
      rcases hf with h | h | h
      all_goals subst h
      · exact classify_info_contains m (by simpa [filterSev] using hcls)
      · exact classify_warning_contains m (by simpa [filterSev] using hcls)
      · exact classify_error_contains m (by simpa [filterSev] using hcls)
    rw [hq]
    exact List.mem_filter.mpr
      ⟨List.mem_map_of_mem colorizeLog hm, keyword_in_query m f hkw⟩

/-- C5 witness: with filter ERROR on the single raw line x ERROR, the query
result is a sublist of the store. -/
theorem c5_witness :
    (("ERROR" : String) = "INFO" ∨ ("ERROR" : String) = "WARNING" ∨
      ("ERROR" : String) = "ERROR") ∧
    List.Sublist (Ui3.GetFilteredLogs "ERROR" (["x ERROR"].map colorizeLog))
      (["x ERROR"].map colorizeLog) :=
  ⟨by decide, (c5_query_by_severity ["x ERROR"] "ERROR" (by decide)).1⟩

/-- C6: severity classification at ingestion is the case-sensitive
first-match-wins check in the order INFO, WARNING, ERROR, with OTHER
otherwise; colorizeLog attaches exactly the markup of that class; an entry
containing ERROR and matching no earlier-priority class classifies as
ERROR; the lower-case line error classifies as OTHER. -/
theorem c6_severity_first_match :
    (∀ s : String, goContains s "INFO" = true → classify s = Severity.INFO) ∧
    (∀ s : String, goContains s "INFO" = false → goContains s "WARNING" = true →
      classify s = Severity.WARNING) ∧
    (∀ s : String, goContains s "INFO" = false → goContains s "WARNING" = false →
      goContains s "ERROR" = true → classify s = Severity.ERROR) ∧
    (∀ s : String, goContains s "INFO" = false → goContains s "WARNING" = false →
      goContains s "ERROR" = false → classify s = Severity.OTHER) ∧
    (∀ s : String, colorizeLog s = colorWrap (classify s) s) ∧
    classify "error" = Severity.OTHER := by
  refine ⟨?_, ?_, ?_, ?_, ?_, by decide⟩
  · intro s h
    simp [classify, h]
  · intro s h1 h2
    simp [classify, h1, h2]
  · intro s h1 h2 h3
    simp [classify, h1, h2, h3]
  · intro s h1 h2 h3
    simp [classify, h1, h2, h3]
  · intro s
    unfold colorizeLog classify
    split_ifs
    all_goals rfl

/-- C6 witness: the line x ERROR contains ERROR, matches neither INFO nor
WARNING, and classifies as ERROR. -/
theorem c6_witness :
    goContains "x ERROR" "ERROR" = true ∧ goContains "x ERROR" "INFO" = false ∧
    goContains "x ERROR" "WARNING" = false ∧ classify "x ERROR" = Severity.ERROR :=
  ⟨by decide, by decide, by decide,
    c6_severity_first_match.2.2.1 "x ERROR" (by decide) (by decide) (by decide)⟩
